/-
Verification of the state-translation engine in `sw/control.py` (nanomixer).

This file shallowly embeds the data model and the operations of `control.py`:
the logical mixer state (a dict from formatted string keys to values), the
logical-to-physical bus mapping and its inversion, the one-step generational
memoizer, the `logical_to_physical` translation (downmix gain matrix, filter
coefficient writes, constants and metering-filter writes), and the Controller
operations `apply_update` and `load_snapshot`.

Modelling conventions:
- Python floats are embedded as real numbers (`ℝ`); `x ** y` on nonnegative
  floats is `Real.rpow`.
- Python dicts are embedded as functions `key → Option value`; a `KeyError`
  on lookup corresponds to `none`, and fallible computations return `Option`.
- The modules `dsp_program`, `biquads`, `spi_channel` and `fpga_data_link`
  are part of the repository but absent from the sources provided here; their
  interface (hardware parameter counts, reserved addresses, the biquad
  coefficient computation, `StateVarFilter.encode_params`) is carried as
  abstract data (`DspProgram`, `Mixer`) or modelled from the spec where the
  spec fixes a value.
-/
import Mathlib

/-- The `metadata` record built at module level in `control.py` (lines 64-68):
four integer fields describing the topology. -/
structure Metadata where
  num_busses : Nat
  num_channels : Nat
  num_biquads_per_channel : Nat
  num_biquads_per_bus : Nat
deriving DecidableEq

/-- A value stored in the mixer state dict: Python floats, bools, strings,
or the nested metadata record stored at key `"metadata"`. -/
inductive Value where
  | num (x : ℝ)
  | bool (b : Bool)
  | str (s : String)
  | meta (m : Metadata)

/-- The mixer state: a dict from formatted string keys to values.
`state k = none` models a `KeyError` on lookup of `k`. -/
abbrev MixerState := String → Option Value

namespace state_names

/-- Key format `'b{bus}/{param}'` from `state_names.bus`. -/
def bus (bus : Nat) (param : String) : String :=
  "b" ++ toString bus ++ "/" ++ param

/-- Key format `'c{channel}/{param}'` from `state_names.channel`. -/
def channel (channel : Nat) (param : String) : String :=
  "c" ++ toString channel ++ "/" ++ param

/-- Key format `'b{bus}/c{channel}/{param}'` from `state_names.fader`. -/
def fader (bus channel : Nat) (param : String) : String :=
  "b" ++ toString bus ++ "/c" ++ toString channel ++ "/" ++ param

/-- Key format `'c{channel}/f{filt}/{param}'` from `state_names.channel_filter`. -/
def channel_filter (channel filt : Nat) (param : String) : String :=
  "c" ++ toString channel ++ "/f" ++ toString filt ++ "/" ++ param

/-- Key format `'b{bus}/f{filt}/{param}'` from `state_names.bus_filter`. -/
def bus_filter (bus filt : Nat) (param : String) : String :=
  "b" ++ toString bus ++ "/f" ++ toString filt ++ "/" ++ param

end state_names

/-- Typed dict lookup of a numeric parameter (the translation applies float
arithmetic to these values, so a well-typed state stores `Value.num` there). -/
def getNum (state : MixerState) (key : String) : Option ℝ :=
  match state key with
  | some (Value.num x) => some x
  | _ => none

/-- Typed dict lookup of a boolean parameter (`mute`, `pfl`). -/
def getBool (state : MixerState) (key : String) : Option Bool :=
  match state key with
  | some (Value.bool b) => some b
  | _ => none

/-- Typed dict lookup of a string parameter (the filter `type`). -/
def getStr (state : MixerState) (key : String) : Option String :=
  match state key with
  | some (Value.str s) => some s
  | _ => none

/-- Dict write `st[k] = v`, as used by `apply_update`. -/
def dictSet (st : MixerState) (k : String) (v : Value) : MixerState :=
  fun k' => if k' = k then some v else st k'

/-- Python `live.update(snap)`: every key of `snap` overwrites `live`, keys
absent from `snap` keep their `live` value. -/
def dictUpdate (live snap : MixerState) : MixerState :=
  fun k => match snap k with
    | some v => some v
    | none => live k

/-- `logical_bus_to_physical_bus_mapping` (lines 41-49): logical bus 0 is the
stereo pair of physical buses 0 and 1; logical buses 1-6 are mono. -/
def logical_bus_to_physical_bus_mapping : List (List Nat) :=
  [[0, 1], [2], [3], [4], [5], [6], [7]]

/-- `solo_bus_index = len(logical_bus_to_physical_bus_mapping) - 1` (line 71). -/
def solo_bus_index : Nat := logical_bus_to_physical_bus_mapping.length - 1

/-- `invert_mapping` (lines 52-57): start from a list of `None`s and assign
`logical_bus` at each physical bus position it maps to.  (Python raises
`IndexError` when a physical bus index is out of range; `List.set` is a
no-op there, and all uses below stay in range.) -/
def invert_mapping (mapping : List (List Nat)) (num_physical_buses : Nat) :
    List (Option Nat) :=
  mapping.enum.foldl
    (fun acc p => p.2.foldl (fun acc2 pb => acc2.set pb (some p.1)) acc)
    (List.replicate num_physical_buses none)

/-- Modelled from the spec: `HARDWARE_PARAMS['num_cores']` lives in the
`dsp_program` module, which is absent from the provided sources; the spec's
reference scenario (§8) fixes a topology with 2 cores. -/
def HARDWARE_PARAMS_num_cores : Nat := 2

/-- Modelled from the spec: `HARDWARE_PARAMS['num_busses_per_core']` lives in
the `dsp_program` module, absent from the provided sources; the 8-entry
physical-bus mapping together with the spec's 2-core reference topology gives
4 buses per core. -/
def HARDWARE_PARAMS_num_busses_per_core : Nat := 4

/-- `num_physical_buses = HARDWARE_PARAMS['num_busses_per_core'] *
HARDWARE_PARAMS['num_cores']` (line 59). -/
def num_physical_buses : Nat :=
  HARDWARE_PARAMS_num_busses_per_core * HARDWARE_PARAMS_num_cores

/-- `logical_bus_for_physical_bus` (line 61). -/
def logical_bus_for_physical_bus : List (Option Nat) :=
  invert_mapping logical_bus_to_physical_bus_mapping num_physical_buses

/-- `PAN_LAW_DB = 3.` (line 28). -/
def PAN_LAW_DB : ℝ := 3

/-- `panning_exponent = PAN_LAW_DB / (20*np.log10(2.))` (line 29). -/
noncomputable def panning_exponent : ℝ := PAN_LAW_DB / (20 * Real.logb 10 2)

/-- The parameter record `METERING_LPF_PARAMS` (lines 16-19). -/
structure MeteringLpfParams where
  Fc : ℝ
  Q : ℝ
  Fs : ℝ

/-- `METERING_LPF_PARAMS = dict(Fc=7.5, Q=np.sqrt(2.)/2., Fs=48000)`. -/
noncomputable def METERING_LPF_PARAMS : MeteringLpfParams :=
  { Fc := 7.5, Q := Real.sqrt 2 / 2, Fs := 48000 }

/-- Pointwise update of a dict-as-function at one key. -/
def updateFn {K V : Type} [DecidableEq K] (f : K → Option V) (k : K) (v : V) :
    K → Option V :=
  fun k' => if k' = k then some v else f k'

/-- `OneStepMemoizer` (lines 134-151): two generations `cur` and `next`,
each a dict from the memoization key to the computed value.  The Python key
is `marshal.dumps((a, kw))`, injective on the call arguments, so the key type
is abstract here. -/
structure OneStepMemoizer (K V : Type) where
  cur : K → Option V
  next : K → Option V

/-- `OneStepMemoizer.get` (lines 139-147): on a hit in `cur` return the cached
value; on a miss invoke `func` and store the result in `cur`; in both cases
record the key in `next`.  Returns the value with the updated memoizer. -/
def OneStepMemoizer.get {K V : Type} [DecidableEq K]
    (m : OneStepMemoizer K V) (func : K → V) (key : K) :
    V × OneStepMemoizer K V :=
  match m.cur key with
  | some val => (val, { cur := m.cur, next := updateFn m.next key val })
  | none =>
      (func key,
       { cur := updateFn m.cur key (func key),
         next := updateFn m.next key (func key) })

/-- `OneStepMemoizer.advance` (lines 149-151): `cur` becomes `next`, `next`
becomes empty. -/
def OneStepMemoizer.advance {K V : Type} (m : OneStepMemoizer K V) :
    OneStepMemoizer K V :=
  { cur := m.next, next := fun _ => none }

/-- One translation cycle's worth of `get` requests, in order, all with the
same compute function (the code always passes `compute_biquad_param_mem`). -/
def runCycle {K V : Type} [DecidableEq K]
    (m : OneStepMemoizer K V) (f : K → V) : List K → OneStepMemoizer K V
  | [] => m
  | k :: ks => runCycle (m.get f k).2 f ks

/-- One `set_memory(core=..., addr=..., data=...)` call issued by the
translation. -/
structure MemWrite where
  core : Nat
  addr : Nat
  data : List ℝ
deriving Inhabited

/-- The memoization key of `compute_biquad_param_mem`: the keyword arguments
`(typ, f0, dBgain, q)` (marshalled by `OneStepMemoizer.get` in Python). -/
abbrev BiquadKey := String × ℝ × ℝ × ℝ

noncomputable instance : DecidableEq BiquadKey := Classical.decEq _

/-- The interface of the `dsp_program` and `biquads` modules, which are part
of the repository but absent from the provided sources: the reserved constants
block and its base address, the reserved metering-filter base address,
`StateVarFilter.encode_params`, and `compute_biquad_param_mem` (lines 154-157,
whose `filter_types`/`normalize` internals live in the absent `biquads`
module). -/
structure DspProgram where
  constants_base : Nat
  constants : List ℝ
  meter_filter_param_base : Nat
  encode_params : MeteringLpfParams → List ℝ
  compute_biquad : BiquadKey → List ℝ

/-- The address layout of the `mixer` object from `dsp_program`:
`channel_biquads[channel].params[biquad_idx][0].addr`,
`bus_strips[physical_bus].biquad_chain.params[biquad_idx][0].addr`, and
`downmixes[physical_bus].gain[core][channel]` (an address). -/
structure Mixer where
  channel_biquads : List (List Nat)
  bus_strips : List (List Nat)
  downmixes : List (List (List Nat))

/-- The `absLevel` computation for one `(logical_bus, channel)` cell of the
downmix loop (lines 205-213).  `absBusFaderLevel` is hoisted out per bus in
the code (line 203), so it is an argument here.  `none` models the `KeyError`
raised when a parameter key is absent (or is not of the arithmetic type the
code applies to it). -/
noncomputable def cellGain (state : MixerState) (logical_bus channel : Nat)
    (absBusFaderLevel : ℝ) : Option ℝ :=
  if logical_bus = solo_bus_index then
    -- Solo bus is entirely controlled by PFLs, independent of muting.
    (getBool state (state_names.channel channel "pfl")).map
      (fun pfl => if pfl then 1 else 0)
  else
    match getBool state (state_names.channel channel "mute") with
    | none => none
    | some true => some 0
    | some false =>
        (getNum state (state_names.fader logical_bus channel "lvl")).map
          (fun level => (10 : ℝ) ^ (level / 20) * absBusFaderLevel)

/-- The matrix assignments performed for one `(logical_bus, channel)` cell
(lines 214-222): mono buses get `absLevel` directly; stereo buses get the
constant-power-panned pair.  Each element is `(physical_bus, channel, gain)`.
Python's 2-element unpacking of `physical_buses` fails for lists of length
other than 1 or 2, modelled by `none`. -/
noncomputable def cellAssign (state : MixerState) (logical_bus : Nat)
    (physical_buses : List Nat) (channel : Nat) (absBusFaderLevel : ℝ) :
    Option (List (Nat × Nat × ℝ)) :=
  match cellGain state logical_bus channel absBusFaderLevel with
  | none => none
  | some absLevel =>
    match physical_buses with
    | [pb] => some [(pb, channel, absLevel)]
    | [left, right] =>
        (getNum state (state_names.fader logical_bus channel "pan")).map
          (fun pan =>
            [(left, channel, absLevel * ((0.5 : ℝ) - pan) ^ panning_exponent),
             (right, channel, absLevel * ((0.5 : ℝ) + pan) ^ panning_exponent)])
    | _ => none

/-- The inner channel loop for one logical bus (lines 202-222): read the bus
output level, convert it to a linear factor, and collect the per-channel
matrix assignments for channels `0 .. n-1` in order. -/
noncomputable def busAssignments (state : MixerState) (logical_bus : Nat)
    (physical_buses : List Nat) : Nat → Option (List (Nat × Nat × ℝ))
  | 0 =>
      (getNum state (state_names.bus logical_bus "lvl")).map (fun _ => [])
  | n + 1 =>
      match getNum state (state_names.bus logical_bus "lvl") with
      | none => none
      | some bus_output_level =>
        match busAssignments state logical_bus physical_buses n,
              cellAssign state logical_bus physical_buses n
                ((10 : ℝ) ^ (bus_output_level / 20)) with
        | some acc, some cell => some (acc ++ cell)
        | _, _ => none

/-- The outer loop over `enumerate(logical_bus_to_physical_bus_mapping)`
(line 201), starting at logical bus index `lb0`. -/
noncomputable def busListAssignments (state : MixerState) (n : Nat) :
    Nat → List (List Nat) → Option (List (Nat × Nat × ℝ))
  | _, [] => some []
  | lb0, buses :: rest =>
      match busAssignments state lb0 buses n,
            busListAssignments state n (lb0 + 1) rest with
      | some cell, some restAcc => some (cell ++ restAcc)
      | _, _ => none

/-- All downmix matrix assignments of one translation, in program order. -/
noncomputable def downmixAssignments (state : MixerState) (n : Nat) :
    Option (List (Nat × Nat × ℝ)) :=
  busListAssignments state n 0 logical_bus_to_physical_bus_mapping

/-- Replay a list of matrix assignments onto `np.zeros((...))`: later
assignments overwrite earlier ones at the same `(physical_bus, channel)`
position. -/
noncomputable def applyAssignments (l : List (Nat × Nat × ℝ)) :
    Nat → Nat → ℝ :=
  l.foldl
    (fun m e => fun pb ch => if pb = e.1 ∧ ch = e.2.1 then e.2.2 else m pb ch)
    (fun _ _ => 0)

/-- `gain_for_physical_bus` (lines 199-222) as a function of
`(physical_bus, channel)`, for `n` downmix channels. -/
noncomputable def gainMatrix (state : MixerState) (n : Nat) :
    Option (Nat → Nat → ℝ) :=
  (downmixAssignments state n).map applyAssignments

/-- The `set_memory` calls of the downmix write-out loop (lines 224-230):
for each physical bus and channel, write the matrix entry (one word) at the
gain address of core 0 (`downmix.gain[0]`, hardcoded core 0 in the source). -/
def downmixWrites (mix : Mixer) (m : Nat → Nat → ℝ) : List MemWrite :=
  (mix.downmixes.enum.map
    (fun p => (p.2.getD 0 []).enum.map
      (fun q => MemWrite.mk 0 q.2 [m p.1 q.1]))).flatten

/-- One biquad chain's filter writes (the shared body of the channel-filter
loop, lines 177-184, and the bus-filter loop, lines 187-195): for each biquad
address, read `(type, freq, gain, q)` at keys built by `fmt`, fetch the packed
coefficients through the memoizer, and emit a `set_memory` at core 0. -/
noncomputable def filterChainWrites (state : MixerState) (prog : DspProgram)
    (fmt : Nat → String → String) :
    List Nat → Nat → OneStepMemoizer BiquadKey (List ℝ) →
    Option (List MemWrite × OneStepMemoizer BiquadKey (List ℝ))
  | [], _, mz => some ([], mz)
  | addr :: rest, idx, mz =>
      match getStr state (fmt idx "type"), getNum state (fmt idx "freq"),
            getNum state (fmt idx "gain"), getNum state (fmt idx "q") with
      | some typ, some freq, some gain, some q =>
          match filterChainWrites state prog fmt rest (idx + 1)
                  (mz.get prog.compute_biquad (typ, freq, gain, q)).2 with
          | some (ws, mz') =>
              some (MemWrite.mk 0 addr
                      (mz.get prog.compute_biquad (typ, freq, gain, q)).1 :: ws,
                    mz')
          | none => none
      | _, _, _, _ => none

/-- The channel-filter loop (lines 177-184), over
`enumerate(mixer.channel_biquads)` starting at channel index `ch0`. -/
noncomputable def channelFiltersWrites (state : MixerState) (prog : DspProgram) :
    List (List Nat) → Nat → OneStepMemoizer BiquadKey (List ℝ) →
    Option (List MemWrite × OneStepMemoizer BiquadKey (List ℝ))
  | [], _, mz => some ([], mz)
  | addrs :: rest, ch0, mz =>
      match filterChainWrites state prog (state_names.channel_filter ch0)
              addrs 0 mz with
      | some (ws, mz') =>
          match channelFiltersWrites state prog rest (ch0 + 1) mz' with
          | some (ws', mz'') => some (ws ++ ws', mz'')
          | none => none
      | none => none

/-- The bus-filter loop (lines 187-195), over `enumerate(mixer.bus_strips)`
starting at physical bus index `pb0`; the owning logical bus is looked up in
`logical_bus_for_physical_bus` (a `None` entry makes the subsequent state
lookup fail, modelled by `none`). -/
noncomputable def busFiltersWrites (state : MixerState) (prog : DspProgram) :
    List (List Nat) → Nat → OneStepMemoizer BiquadKey (List ℝ) →
    Option (List MemWrite × OneStepMemoizer BiquadKey (List ℝ))
  | [], _, mz => some ([], mz)
  | addrs :: rest, pb0, mz =>
      match logical_bus_for_physical_bus.getD pb0 none with
      | none => none
      | some logical_bus =>
          match filterChainWrites state prog (state_names.bus_filter logical_bus)
                  addrs 0 mz with
          | some (ws, mz') =>
              match busFiltersWrites state prog rest (pb0 + 1) mz' with
              | some (ws', mz'') => some (ws ++ ws', mz'')
              | none => none
          | none => none

/-- The final constants-and-metering section of `logical_to_physical`
(lines 233-241), as written: the constants block is written inside the
per-core loop, but the metering-filter `set_memory` call on line 241 is
dedented out of the loop body (its comment on line 240 sits inside the loop),
so it runs once after the loop with `core` still bound to the last loop
value, `num_cores - 1`. -/
noncomputable def constantsAndMeterWrites (num_cores : Nat) (prog : DspProgram) :
    List MemWrite :=
  ((List.range num_cores).map
    (fun core => MemWrite.mk core prog.constants_base prog.constants)) ++
  [MemWrite.mk (num_cores - 1) prog.meter_filter_param_base
    (prog.encode_params METERING_LPF_PARAMS)]

/-- `logical_to_physical` (lines 160-241): emit all `set_memory` calls of one
translation, in program order, threading the memoizer through the filter
loops.  `none` models an exception aborting the translation (a missing or
ill-typed state key). -/
noncomputable def logical_to_physical (state : MixerState) (mix : Mixer)
    (prog : DspProgram) (mz : OneStepMemoizer BiquadKey (List ℝ)) :
    Option (List MemWrite × OneStepMemoizer BiquadKey (List ℝ)) :=
  match channelFiltersWrites state prog mix.channel_biquads 0 mz with
  | none => none
  | some (w1, mz1) =>
    match busFiltersWrites state prog mix.bus_strips 0 mz1 with
    | none => none
    | some (w2, mz2) =>
      -- num_downmix_channels = len(mixer.downmixes[0].gain[0]) (line 198)
      match downmixAssignments state
              (((mix.downmixes.getD 0 []).getD 0 []).length) with
      | none => none
      | some asgn =>
          some (w1 ++ w2 ++ downmixWrites mix (applyAssignments asgn) ++
                  constantsAndMeterWrites HARDWARE_PARAMS_num_cores prog,
                mz2)

/-- The `set_memory` closure of `Controller._update_state` (lines 308-309):
`desired_param_mem[int(addr):int(addr)+len(data)] = data`.  There is a single
flat word array shared by all cores (`io_thread.desired_param_mem`); the
`core` argument of the call is not used. -/
def set_memory_flat (mem : Nat → ℝ) (w : MemWrite) : Nat → ℝ :=
  fun i =>
    if w.addr ≤ i ∧ i < w.addr + w.data.length then w.data.getD (i - w.addr) 0
    else mem i

/-- Replay a translation's `set_memory` calls, in order, onto the flat
parameter-memory array. -/
def applyWrites (mem : Nat → ℝ) (ws : List MemWrite) : Nat → ℝ :=
  ws.foldl set_memory_flat mem

/-- The state owned by a `Controller` that the claims touch: the logical state
dict, the memoizer, and the shared parameter-memory image
(`io_thread.desired_param_mem`). -/
structure ControllerState where
  state : MixerState
  memoizer : OneStepMemoizer BiquadKey (List ℝ)
  param_mem : Nat → ℝ

/-- `Controller._update_state` (lines 306-311): run `logical_to_physical` with
the flat `set_memory`, then `memoizer.advance()`.  `none` models a translation
aborted by an exception (the partial in-place writes Python makes before the
exception propagates are not modelled; no claim concerns that path). -/
noncomputable def Controller.update_state (c : ControllerState) (mix : Mixer)
    (prog : DspProgram) : Option ControllerState :=
  match logical_to_physical c.state mix prog c.memoizer with
  | some (ws, mz) =>
      some { state := c.state, memoizer := mz.advance,
             param_mem := applyWrites c.param_mem ws }
  | none => none

/-- `Controller.apply_update` (lines 285-295): if `control` is not a key of
the state dict, return `False` (no mutation); otherwise set it, re-run the
translation, and return `True`. -/
noncomputable def Controller.apply_update (c : ControllerState) (mix : Mixer)
    (prog : DspProgram) (control : String) (value : Value) :
    Option (Bool × ControllerState) :=
  if (c.state control).isSome then
    match Controller.update_state { c with state := dictSet c.state control value }
            mix prog with
    | some c' => some (true, c')
    | none => none
  else some (false, c)

/-- The `InvalidSnapshot` failure (lines 74-75, raised on line 269). -/
inductive SnapshotError where
  | invalidSnapshot
deriving DecidableEq

/-- `Controller.load_snapshot` (lines 265-270), after the file has been read
and parsed into `snap`: compare `snap['metadata']` with the live
`state['metadata']`; on mismatch raise `InvalidSnapshot`, otherwise merge the
snapshot over the live state with `dict.update`.  The second component of the
result is the live state afterwards; a missing `'metadata'` key is a
`KeyError`, modelled by `none`.  (The live model always stores a
`Value.meta` record at `"metadata"`; a snapshot whose `"metadata"` entry is
not a record never equals it, hence the shape-mismatch row.) -/
noncomputable def Controller.load_snapshot (live snap : MixerState) :
    Option (Except SnapshotError Unit × MixerState) :=
  match snap "metadata", live "metadata" with
  | some (Value.meta ms), some (Value.meta ml) =>
      if ms = ml then some (Except.ok (), dictUpdate live snap)
      else some (Except.error SnapshotError.invalidSnapshot, live)
  | some _, some _ => some (Except.error SnapshotError.invalidSnapshot, live)
  | _, _ => none

/-- Well-typedness of a state for the downmix loop over `n` channels: every
parameter key the loop reads is present and carries a value of the type the
code's arithmetic requires.  (On any state violating this, the Python loop
raises and the translation aborts.) -/
def DownmixOK (state : MixerState) (n : Nat) : Prop :=
  (∀ lb, lb < logical_bus_to_physical_bus_mapping.length →
    ∃ x : ℝ, state (state_names.bus lb "lvl") = some (Value.num x)) ∧
  (∀ ch, ch < n →
    ∃ b : Bool, state (state_names.channel ch "mute") = some (Value.bool b)) ∧
  (∀ ch, ch < n →
    ∃ b : Bool, state (state_names.channel ch "pfl") = some (Value.bool b)) ∧
  (∀ lb, lb < logical_bus_to_physical_bus_mapping.length → ∀ ch, ch < n →
    ∃ x : ℝ, state (state_names.fader lb ch "lvl") = some (Value.num x)) ∧
  (∀ lb, lb < logical_bus_to_physical_bus_mapping.length → ∀ ch, ch < n →
    ∃ x : ℝ, state (state_names.fader lb ch "pan") = some (Value.num x))

/-- A concrete two-channel test state used by the witnesses: all levels and
pans 0 dB, channel 0 unmuted with `pfl` set, channel 1 muted with `pfl`
clear. -/
noncomputable def testPairs : List (String × Value) :=
  ((List.range 7).map (fun lb => (state_names.bus lb "lvl", Value.num 0))) ++
  [(state_names.channel 0 "mute", Value.bool false),
   (state_names.channel 0 "pfl", Value.bool true),
   (state_names.channel 1 "mute", Value.bool true),
   (state_names.channel 1 "pfl", Value.bool false)] ++
  ((List.range 7).map (fun lb => (state_names.fader lb 0 "lvl", Value.num 0))) ++
  ((List.range 7).map (fun lb => (state_names.fader lb 0 "pan", Value.num 0))) ++
  ((List.range 7).map (fun lb => (state_names.fader lb 1 "lvl", Value.num 0))) ++
  ((List.range 7).map (fun lb => (state_names.fader lb 1 "pan", Value.num 0)))

/-- The test state as a dict. -/
noncomputable def testState : MixerState :=
  fun k => (testPairs.find? (fun p => p.1 = k)).map Prod.snd

/-- An empty memoizer, as built by `Controller.__init__`. -/
def emptyMemoizer : OneStepMemoizer BiquadKey (List ℝ) :=
  { cur := fun _ => none, next := fun _ => none }

/-- A miniature mixer layout for the `apply_update` witness: no channel or
bus biquads, eight physical downmix buses with an empty core-0 gain address
row (zero downmix channels). -/
def witnessMixer : Mixer :=
  { channel_biquads := [], bus_strips := [],
    downmixes := List.replicate 8 [[]] }

/-- Concrete external-module data for the witnesses: distinct reserved
addresses for the constants block and the metering filter. -/
noncomputable def witnessProg : DspProgram :=
  { constants_base := 10, constants := [1, 2],
    meter_filter_param_base := 20,
    encode_params := fun _ => [3],
    compute_biquad := fun _ => [] }

/-- A tiny state for the `apply_update` witness: the seven bus levels the
downmix loop reads even with zero channels, plus channel 0's mute flag (the
control being updated). -/
noncomputable def witnessCtrlState : MixerState :=
  fun k =>
    (((((List.range 7).map
          (fun lb => (state_names.bus lb "lvl", Value.num 0))) ++
        [(state_names.channel 0 "mute", Value.bool true)]).find?
          (fun p => p.1 = k)).map Prod.snd)

/-- A live model for the snapshot witnesses. -/
noncomputable def witnessLive : MixerState :=
  fun k =>
    if k = "metadata" then some (Value.meta ⟨7, 8, 5, 5⟩)
    else if k = "b0/lvl" then some (Value.num 0)
    else none

/-- A snapshot whose metadata record disagrees with `witnessLive`'s. -/
def witnessSnapBad : MixerState :=
  fun k => if k = "metadata" then some (Value.meta ⟨3, 8, 5, 5⟩) else none

/-- A snapshot whose metadata record matches `witnessLive`'s and which
carries one parameter key of its own. -/
noncomputable def witnessSnapGood : MixerState :=
  fun k =>
    if k = "metadata" then some (Value.meta ⟨7, 8, 5, 5⟩)
    else if k = "b1/lvl" then some (Value.num 1) else none

/- ------------------------------------------------------------------ -/
/- Theorems.                                                           -/
/- ------------------------------------------------------------------ -/

theorem OneStepMemoizer.get_next_eq {K V : Type} [DecidableEq K]
    (m : OneStepMemoizer K V) (f : K → V) (k : K) :
    ((m.get f k).2).next = updateFn m.next k (m.get f k).1 := by
  cases h : m.cur k <;> simp [OneStepMemoizer.get, h]

theorem runCycle_next_isSome {K V : Type} [DecidableEq K] (f : K → V)
    (ks : List K) :
    ∀ (m : OneStepMemoizer K V) (k' : K),
      ((runCycle m f ks).next k').isSome ↔ (m.next k').isSome ∨ k' ∈ ks := by
  induction ks with
  | nil => intro m k'; simp [runCycle]
  | cons a ks ih =>
      intro m k'
      rw [runCycle, ih, OneStepMemoizer.get_next_eq]
      by_cases hk : k' = a <;> simp [updateFn, hk]

/-- C4: within one cycle, a second `get` with the same key returns the value
just cached, whatever compute function is supplied (so the compute function is
not invoked again); and after `advance()` following a cycle of requests `ks`
started right after an `advance()` (empty `next`), the current generation
holds exactly the keys in `ks` and the next generation is empty — a key not
requested in the cycle is dropped. -/
theorem C4_memoizer_generations {K V : Type} [DecidableEq K]
    (m0 : OneStepMemoizer K V) (f : K → V) (k : K) (ks : List K)
    (hnext : ∀ k', m0.next k' = none) :
    (∀ g : K → V, (((m0.get f k).2).get g k).1 = (m0.get f k).1) ∧
    (∀ k', ((runCycle m0 f ks).advance.cur k').isSome ↔ k' ∈ ks) ∧
    (∀ k', (runCycle m0 f ks).advance.next k' = none) := by
  refine ⟨fun g => ?_, fun k' => ?_, fun k' => rfl⟩
  · cases h : m0.cur k <;> simp [OneStepMemoizer.get, h, updateFn]
  · show ((runCycle m0 f ks).next k').isSome ↔ k' ∈ ks
    rw [runCycle_next_isSome, hnext k']
    simp

theorem C4_memoizer_generations_witness :
    (∀ k' : Nat,
      (OneStepMemoizer.mk (fun _ => none) (fun _ => none) :
        OneStepMemoizer Nat Nat).next k' = none) ∧
    ((∀ g : Nat → Nat,
        (((OneStepMemoizer.mk (fun _ => none) (fun _ => none) :
            OneStepMemoizer Nat Nat).get id 5).2.get g 5).1 =
        ((OneStepMemoizer.mk (fun _ => none) (fun _ => none) :
            OneStepMemoizer Nat Nat).get id 5).1) ∧
     (∀ k' : Nat,
        ((runCycle (OneStepMemoizer.mk (fun _ => none) (fun _ => none)) id
            [1, 2]).advance.cur k').isSome ↔ k' ∈ [1, 2]) ∧
     (∀ k' : Nat,
        (runCycle (OneStepMemoizer.mk (fun _ => none) (fun _ => none)) id
            [1, 2]).advance.next k' = none)) :=
  ⟨fun _ => rfl,
   C4_memoizer_generations (OneStepMemoizer.mk (fun _ => none) (fun _ => none))
     id 5 [1, 2] (fun _ => rfl)⟩

/-- C7: loading a snapshot whose metadata record differs from the live
model's fails with `InvalidSnapshot`, and the live state afterwards is the
live state before — no key is merged. -/
theorem C7_snapshot_metadata_mismatch (live snap : MixerState)
    (ms ml : Metadata)
    (hs : snap "metadata" = some (Value.meta ms))
    (hl : live "metadata" = some (Value.meta ml))
    (hne : ms ≠ ml) :
    Controller.load_snapshot live snap =
      some (Except.error SnapshotError.invalidSnapshot, live) := by
  simp [Controller.load_snapshot, hs, hl, hne]

theorem C7_snapshot_metadata_mismatch_witness :
    witnessSnapBad "metadata" = some (Value.meta ⟨3, 8, 5, 5⟩) ∧
    witnessLive "metadata" = some (Value.meta ⟨7, 8, 5, 5⟩) ∧
    (Metadata.mk 3 8 5 5 ≠ Metadata.mk 7 8 5 5) ∧
    Controller.load_snapshot witnessLive witnessSnapBad =
      some (Except.error SnapshotError.invalidSnapshot, witnessLive) :=
  ⟨rfl, rfl, by decide,
   C7_snapshot_metadata_mismatch witnessLive witnessSnapBad ⟨3, 8, 5, 5⟩
     ⟨7, 8, 5, 5⟩ rfl rfl (by decide)⟩

/-- C10: a snapshot whose metadata matches is merged over the live state with
`dict.update`: keys absent from the snapshot keep their live value, keys
present in the snapshot take the snapshot's value. -/
theorem C10_snapshot_merge (live snap : MixerState) (m : Metadata)
    (hs : snap "metadata" = some (Value.meta m))
    (hl : live "metadata" = some (Value.meta m)) :
    ∃ merged, Controller.load_snapshot live snap = some (Except.ok (), merged) ∧
      (∀ k, snap k = none → merged k = live k) ∧
      (∀ k v, snap k = some v → merged k = some v) := by
  refine ⟨dictUpdate live snap, ?_, fun k hk => ?_, fun k v hk => ?_⟩
  · simp [Controller.load_snapshot, hs, hl]
  · simp [dictUpdate, hk]
  · simp [dictUpdate, hk]

theorem C10_snapshot_merge_witness :
    witnessSnapGood "metadata" = some (Value.meta ⟨7, 8, 5, 5⟩) ∧
    witnessLive "metadata" = some (Value.meta ⟨7, 8, 5, 5⟩) ∧
    ∃ merged,
      Controller.load_snapshot witnessLive witnessSnapGood =
        some (Except.ok (), merged) ∧
      (∀ k, witnessSnapGood k = none → merged k = witnessLive k) ∧
      (∀ k v, witnessSnapGood k = some v → merged k = some v) :=
  ⟨rfl, rfl,
   C10_snapshot_merge witnessLive witnessSnapGood ⟨7, 8, 5, 5⟩ rfl rfl⟩

/-- C8 counterexample: `set_memory` ignores the `core` argument — a write
directed at core 1 lands in the same flat array as a write directed at core 0
and overwrites it: after writing 7 at address 5 for core 0 and then 9 at
address 5 for core 1, address 5 reads 9, though the core-0 write alone had
stored 7 there. -/
theorem C8_distinct_cores_overwrite :
    applyWrites (fun _ => 0)
      [MemWrite.mk 0 5 [7], MemWrite.mk 1 5 [9]] 5 = 9 ∧
    applyWrites (fun _ => 0) [MemWrite.mk 0 5 [7]] 5 = 7 := by
  constructor <;> norm_num [applyWrites, set_memory_flat]

/-- C8 (amended): `setMemory(core, addr, data)` writes the words of `data`
contiguously starting at `addr` into the single flat parameter-memory array
shared by all cores; the `core` argument is ignored, so writes directed at
distinct cores target the same array (and can overwrite each other). -/
theorem C8_flat_memory_semantics (mem : Nat → ℝ) (core core' addr : Nat)
    (data : List ℝ) :
    (∀ i, i < data.length →
      set_memory_flat mem (MemWrite.mk core addr data) (addr + i) =
        data.getD i 0) ∧
    (∀ i, i < addr ∨ addr + data.length ≤ i →
      set_memory_flat mem (MemWrite.mk core addr data) i = mem i) ∧
    set_memory_flat mem (MemWrite.mk core addr data) =
      set_memory_flat mem (MemWrite.mk core' addr data) := by
  refine ⟨fun i hi => ?_, fun i hi => ?_, rfl⟩
  · have h1 : addr ≤ addr + i := Nat.le_add_right _ _
    have h2 : addr + i < addr + data.length := Nat.add_lt_add_left hi _
    simp [set_memory_flat, h1, h2]
  · rcases hi with h | h
    · simp [set_memory_flat, Nat.not_le.mpr h]
    · simp [set_memory_flat, Nat.not_lt.mpr h]

theorem C8_flat_memory_semantics_witness :
    ((0 : Nat) < [(7 : ℝ)].length ∧
      set_memory_flat (fun _ => 0) (MemWrite.mk 0 5 [7]) (5 + 0) =
        [(7 : ℝ)].getD 0 0) ∧
    set_memory_flat (fun _ => 0) (MemWrite.mk 0 5 [7]) =
      set_memory_flat (fun _ => 0) (MemWrite.mk 1 5 [7]) :=
  ⟨⟨by decide,
    (C8_flat_memory_semantics (fun _ => 0) 0 1 5 [7]).1 0 (by decide)⟩,
   (C8_flat_memory_semantics (fun _ => 0) 0 1 5 [7]).2.2⟩

/-- C9: over the physical bus index space `0 .. num_busses_per_core *
num_cores - 1`, the inverse mapping is total — every physical bus index is
assigned exactly one logical bus, i.e. the logical-to-physical mapping
partitions the physical bus index space exactly once. -/
theorem C9_inverse_mapping_total :
    ∀ pb ∈ List.range num_physical_buses,
      ∃ lb ∈ List.range logical_bus_to_physical_bus_mapping.length,
        logical_bus_for_physical_bus.getD pb none = some lb ∧
        pb ∈ logical_bus_to_physical_bus_mapping.getD lb [] ∧
        ∀ lb' ∈ List.range logical_bus_to_physical_bus_mapping.length,
          pb ∈ logical_bus_to_physical_bus_mapping.getD lb' [] → lb' = lb := by
  decide

theorem C9_inverse_mapping_total_witness :
    (0 ∈ List.range num_physical_buses) ∧
    ∃ lb ∈ List.range logical_bus_to_physical_bus_mapping.length,
      logical_bus_for_physical_bus.getD 0 none = some lb ∧
      0 ∈ logical_bus_to_physical_bus_mapping.getD lb [] ∧
      ∀ lb' ∈ List.range logical_bus_to_physical_bus_mapping.length,
        0 ∈ logical_bus_to_physical_bus_mapping.getD lb' [] → lb' = lb :=
  ⟨by decide, C9_inverse_mapping_total 0 (by decide)⟩

/-- C5: evaluated at the 2-core topology, the final section of
`logical_to_physical` writes the constants block for both cores, but writes
the metering-filter coefficients only once, for core 1 (the last value of the
loop variable): the `set_memory` call on line 241 sits outside the per-core
loop, although its comment (line 240) sits inside, so no metering-filter
write is issued for core 0 — contradicting the stated claim that every core
receives both writes.  The metering parameters themselves are the fixed
Fc = 7.5, Q = √2/2, Fs = 48000. -/
theorem C5_metering_write_skips_core0 (prog : DspProgram)
    (hne : prog.meter_filter_param_base ≠ prog.constants_base) :
    (MemWrite.mk 0 prog.constants_base prog.constants ∈
      constantsAndMeterWrites 2 prog) ∧
    (MemWrite.mk 1 prog.constants_base prog.constants ∈
      constantsAndMeterWrites 2 prog) ∧
    (MemWrite.mk 1 prog.meter_filter_param_base
        (prog.encode_params METERING_LPF_PARAMS) ∈
      constantsAndMeterWrites 2 prog) ∧
    (∀ d : List ℝ,
      MemWrite.mk 0 prog.meter_filter_param_base d ∉
        constantsAndMeterWrites 2 prog) ∧
    METERING_LPF_PARAMS.Fc = 7.5 ∧
    METERING_LPF_PARAMS.Q = Real.sqrt 2 / 2 ∧
    METERING_LPF_PARAMS.Fs = 48000 := by
  have hL : constantsAndMeterWrites 2 prog =
      [MemWrite.mk 0 prog.constants_base prog.constants,
       MemWrite.mk 1 prog.constants_base prog.constants,
       MemWrite.mk 1 prog.meter_filter_param_base
         (prog.encode_params METERING_LPF_PARAMS)] := rfl
  rw [hL]
  refine ⟨by simp, by simp, by simp, fun d => ?_, rfl, rfl, rfl⟩
  intro hd
  simp only [List.mem_cons, List.not_mem_nil, or_false, MemWrite.mk.injEq] at hd
  rcases hd with ⟨-, h, -⟩ | ⟨h, -⟩ | ⟨h, -⟩
  · exact hne h
  · exact Nat.noConfusion h
  · exact Nat.noConfusion h

theorem C5_metering_write_skips_core0_witness :
    (witnessProg.meter_filter_param_base ≠ witnessProg.constants_base) ∧
    ((MemWrite.mk 0 witnessProg.constants_base witnessProg.constants ∈
        constantsAndMeterWrites 2 witnessProg) ∧
     (MemWrite.mk 1 witnessProg.constants_base witnessProg.constants ∈
        constantsAndMeterWrites 2 witnessProg) ∧
     (MemWrite.mk 1 witnessProg.meter_filter_param_base
          (witnessProg.encode_params METERING_LPF_PARAMS) ∈
        constantsAndMeterWrites 2 witnessProg) ∧
     (∀ d : List ℝ,
       MemWrite.mk 0 witnessProg.meter_filter_param_base d ∉
         constantsAndMeterWrites 2 witnessProg) ∧
     METERING_LPF_PARAMS.Fc = 7.5 ∧
     METERING_LPF_PARAMS.Q = Real.sqrt 2 / 2 ∧
     METERING_LPF_PARAMS.Fs = 48000) :=
  ⟨by decide, C5_metering_write_skips_core0 witnessProg (by decide)⟩

theorem applyAssignments_append_single (l : List (Nat × Nat × ℝ))
    (e : Nat × Nat × ℝ) (pb ch : Nat) :
    applyAssignments (l ++ [e]) pb ch =
      if pb = e.1 ∧ ch = e.2.1 then e.2.2 else applyAssignments l pb ch := by
  simp [applyAssignments, List.foldl_append]

theorem applyAssignments_eq_of_mem_unique (pb ch : Nat) (g : ℝ) :
    ∀ l : List (Nat × Nat × ℝ), (pb, ch, g) ∈ l →
      (∀ g', (pb, ch, g') ∈ l → g' = g) → applyAssignments l pb ch = g := by
  intro l
  induction l using List.reverseRecOn with
  | nil => intro hmem _; simp at hmem
  | append_singleton l e ih =>
      intro hmem huniq
      rw [applyAssignments_append_single]
      by_cases he : pb = e.1 ∧ ch = e.2.1
      · rw [if_pos he]
        refine huniq e.2.2 ?_
        have : e = (pb, ch, e.2.2) := by
          obtain ⟨h1, h2⟩ := he
          rw [h1, h2]
        rw [← this]
        exact List.mem_append_right _ (List.mem_singleton.mpr rfl)
      · rw [if_neg he]
        refine ih ?_ (fun g' hg' => huniq g' (List.mem_append_left _ hg'))
        rcases List.mem_append.mp hmem with h | h
        · exact h
        · exfalso
          rw [List.mem_singleton] at h
          rw [← h] at he
          exact he ⟨rfl, rfl⟩

theorem mapping_get?_lt (i : Nat) (bs : List Nat)
    (h : logical_bus_to_physical_bus_mapping.get? i = some bs) :
    i < logical_bus_to_physical_bus_mapping.length := by
  by_contra hc
  push_neg at hc
  rw [List.get?_eq_none.mpr hc] at h
  exact Option.noConfusion h

theorem mapping_shape (lb : Nat) (buses : List Nat)
    (h : logical_bus_to_physical_bus_mapping.get? lb = some buses) :
    (∃ pb, buses = [pb]) ∨ buses = [0, 1] := by
  have hlb : lb < 7 := mapping_get?_lt lb buses h
  interval_cases lb <;>
    simp only [logical_bus_to_physical_bus_mapping, List.get?, Option.some.injEq] at h <;>
    subst h
  · exact Or.inr rfl
  all_goals exact Or.inl ⟨_, rfl⟩

theorem mapping_partition (i j : Nat) (bi bj : List Nat) (pb : Nat)
    (hi : logical_bus_to_physical_bus_mapping.get? i = some bi)
    (hj : logical_bus_to_physical_bus_mapping.get? j = some bj)
    (hpi : pb ∈ bi) (hpj : pb ∈ bj) : i = j := by
  have hil : i < 7 := mapping_get?_lt i bi hi
  have hjl : j < 7 := mapping_get?_lt j bj hj
  interval_cases i <;> interval_cases j <;>
    simp only [logical_bus_to_physical_bus_mapping, List.get?_cons_zero,
      List.get?_cons_succ, Option.some.injEq] at hi hj <;>
    subst hi <;> subst hj <;> simp_all

theorem busAssignments_spec (state : MixerState) (lb : Nat)
    (buses : List Nat) (busLvl : ℝ)
    (hbus : state (state_names.bus lb "lvl") = some (Value.num busLvl)) :
    ∀ n : Nat,
      (∀ ch, ch < n →
        ∃ c, cellAssign state lb buses ch ((10 : ℝ) ^ (busLvl / 20)) = some c) →
      ∃ L, busAssignments state lb buses n = some L ∧
        ∀ e, e ∈ L ↔ ∃ ch, ch < n ∧ ∃ c,
          cellAssign state lb buses ch ((10 : ℝ) ^ (busLvl / 20)) = some c ∧
          e ∈ c := by
  intro n
  induction n with
  | zero =>
      intro _
      refine ⟨[], ?_, ?_⟩
      · simp [busAssignments, getNum, hbus]
      · simp
  | succ n ih =>
      intro hcells
      obtain ⟨L, hL, hmemL⟩ := ih (fun ch hch => hcells ch (Nat.lt_succ_of_lt hch))
      obtain ⟨c, hc⟩ := hcells n (Nat.lt_succ_self n)
      refine ⟨L ++ c, ?_, ?_⟩
      · simp [busAssignments, getNum, hbus, hL, hc]
      · intro e
        simp only [List.mem_append, hmemL]
        constructor
        · rintro (⟨ch, hch, c', hc', he⟩ | he)
          · exact ⟨ch, Nat.lt_succ_of_lt hch, c', hc', he⟩
          · exact ⟨n, Nat.lt_succ_self n, c, hc, he⟩
        · rintro ⟨ch, hch, c', hc', he⟩
          rcases Nat.lt_succ_iff_lt_or_eq.mp hch with h | h
          · exact Or.inl ⟨ch, h, c', hc', he⟩
          · subst h
            rw [hc] at hc'
            injection hc' with h2
            subst h2
            exact Or.inr he

theorem busListAssignments_spec (state : MixerState) (n : Nat) :
    ∀ (bl : List (List Nat)) (lb0 : Nat),
      (∀ i buses, bl.get? i = some buses →
        ∃ L, busAssignments state (lb0 + i) buses n = some L) →
      ∃ L, busListAssignments state n lb0 bl = some L ∧
        ∀ e, e ∈ L ↔ ∃ i buses Li, bl.get? i = some buses ∧
          busAssignments state (lb0 + i) buses n = some Li ∧ e ∈ Li := by
  intro bl
  induction bl with
  | nil =>
      intro lb0 _
      exact ⟨[], rfl, fun e => by simp⟩
  | cons buses rest ih =>
      intro lb0 hall
      obtain ⟨L0, hL0⟩ := hall 0 buses rfl
      rw [Nat.add_zero] at hL0
      obtain ⟨Lr, hLr, hmemLr⟩ := ih (lb0 + 1) (fun i bs hbs => by
        obtain ⟨L, hL⟩ := hall (i + 1) bs (by simpa using hbs)
        exact ⟨L, by rw [show lb0 + 1 + i = lb0 + (i + 1) by omega]; exact hL⟩)
      refine ⟨L0 ++ Lr, ?_, ?_⟩
      · simp [busListAssignments, hL0, hLr]
      · intro e
        simp only [List.mem_append, hmemLr]
        constructor
        · rintro (he | ⟨i, bs, Li, hget, hassign, he⟩)
          · exact ⟨0, buses, L0, rfl, by rw [Nat.add_zero]; exact hL0, he⟩
          · refine ⟨i + 1, bs, Li, by simpa using hget, ?_, he⟩
            rw [show lb0 + (i + 1) = lb0 + 1 + i by omega]
            exact hassign
        · rintro ⟨i, bs, Li, hget, hassign, he⟩
          match i, hget with
          | 0, hget =>
              rw [List.get?_cons_zero] at hget
              injection hget with hbs
              subst hbs
              rw [Nat.add_zero, hL0] at hassign
              injection hassign with hLi
              subst hLi
              exact Or.inl he
          | i + 1, hget =>
              rw [List.get?_cons_succ] at hget
              refine Or.inr ⟨i, bs, Li, hget, ?_, he⟩
              rw [show lb0 + 1 + i = lb0 + (i + 1) by omega]
              exact hassign

theorem cellAssign_mem (state : MixerState) (lb : Nat) (buses : List Nat)
    (ch : Nat) (a : ℝ) (c : List (Nat × Nat × ℝ))
    (hc : cellAssign state lb buses ch a = some c) :
    ∀ e ∈ c, e.1 ∈ buses ∧ e.2.1 = ch := by
  unfold cellAssign at hc
  cases hg : cellGain state lb ch a with
  | none => rw [hg] at hc; exact absurd hc (by simp)
  | some absLevel =>
      rw [hg] at hc
      rcases buses with _ | ⟨b1, _ | ⟨b2, _ | ⟨b3, rest⟩⟩⟩
      · exact absurd hc (by simp)
      · simp only [Option.some.injEq] at hc
        subst hc
        intro e he
        simp only [List.mem_singleton] at he
        subst he
        simp
      · cases hp : getNum state (state_names.fader lb ch "pan") with
        | none => rw [hp] at hc; exact absurd hc (by simp)
        | some pan =>
            rw [hp] at hc
            simp only [Option.map_some', Option.some.injEq] at hc
            subst hc
            intro e he
            simp only [List.mem_cons, List.not_mem_nil, or_false] at he
            rcases he with he | he
            · subst he; simp
            · subst he; simp
      · exact absurd hc (by simp)

theorem cellAssign_exists (state : MixerState) (n : Nat) (h : DownmixOK state n)
    (lb : Nat) (buses : List Nat)
    (hmap : logical_bus_to_physical_bus_mapping.get? lb = some buses)
    (ch : Nat) (hch : ch < n) (a : ℝ) :
    ∃ c, cellAssign state lb buses ch a = some c := by
  obtain ⟨hbusL, hmuteOK, hpflOK, hflvlOK, hfpanOK⟩ := h
  have hlb : lb < logical_bus_to_physical_bus_mapping.length :=
    mapping_get?_lt lb buses hmap
  have hgain : ∃ g, cellGain state lb ch a = some g := by
    unfold cellGain
    by_cases hs : lb = solo_bus_index
    · obtain ⟨b, hb⟩ := hpflOK ch hch
      simp [hs, getBool, hb]
    · obtain ⟨b, hb⟩ := hmuteOK ch hch
      rcases b with _ | _
      · obtain ⟨x, hx⟩ := hflvlOK lb hlb ch hch
        simp [hs, getBool, hb, getNum, hx]
      · simp [hs, getBool, hb]
  obtain ⟨g, hg⟩ := hgain
  rcases mapping_shape lb buses hmap with ⟨pb, rfl⟩ | rfl
  · refine ⟨[(pb, ch, g)], ?_⟩
    simp [cellAssign, hg]
  · obtain ⟨p, hp⟩ := hfpanOK lb hlb ch hch
    refine ⟨[(0, ch, g * ((0.5 : ℝ) - p) ^ panning_exponent),
             (1, ch, g * ((0.5 : ℝ) + p) ^ panning_exponent)], ?_⟩
    simp [cellAssign, hg, getNum, hp]

theorem gainMatrix_entry (state : MixerState) (n : Nat) (h : DownmixOK state n)
    (lb : Nat) (buses : List Nat)
    (hmap : logical_bus_to_physical_bus_mapping.get? lb = some buses)
    (ch : Nat) (hch : ch < n) (busLvl : ℝ)
    (hbus : state (state_names.bus lb "lvl") = some (Value.num busLvl))
    (c : List (Nat × Nat × ℝ))
    (hc : cellAssign state lb buses ch ((10 : ℝ) ^ (busLvl / 20)) = some c)
    (pb : Nat) (g : ℝ) (hg : (pb, ch, g) ∈ c)
    (huniq : ∀ g', (pb, ch, g') ∈ c → g' = g) :
    ∃ m, gainMatrix state n = some m ∧ m pb ch = g := by
  have htot : ∀ i bs, logical_bus_to_physical_bus_mapping.get? i = some bs →
      ∃ L, busAssignments state (0 + i) bs n = some L := by
    intro i bs hbs
    obtain ⟨x, hx⟩ := h.1 i (mapping_get?_lt i bs hbs)
    obtain ⟨L, hL, -⟩ := busAssignments_spec state i bs x hx n
      (fun ch' hch' => cellAssign_exists state n h i bs hbs ch' hch' _)
    rw [Nat.zero_add]
    exact ⟨L, hL⟩
  obtain ⟨L, hL, hmem⟩ := busListAssignments_spec state n
    logical_bus_to_physical_bus_mapping 0 htot
  obtain ⟨Li, hLi, hmemLi⟩ := busAssignments_spec state lb buses busLvl hbus n
    (fun ch' hch' => cellAssign_exists state n h lb buses hmap ch' hch' _)
  refine ⟨applyAssignments L, ?_, ?_⟩
  · simp [gainMatrix, downmixAssignments, hL]
  · refine applyAssignments_eq_of_mem_unique pb ch g L ?_ ?_
    · exact (hmem (pb, ch, g)).mpr
        ⟨lb, buses, Li, hmap, by rw [Nat.zero_add]; exact hLi,
         (hmemLi (pb, ch, g)).mpr ⟨ch, hch, c, hc, hg⟩⟩
    · intro g' hg'
      obtain ⟨i, bs, Li', hget, hassign, hin⟩ := (hmem (pb, ch, g')).mp hg'
      rw [Nat.zero_add] at hassign
      have hpbbuses : pb ∈ buses :=
        (cellAssign_mem state lb buses ch _ c hc (pb, ch, g) hg).1
      -- pin down which bus index produced this entry
      obtain ⟨x, hx⟩ := h.1 i (mapping_get?_lt i bs hget)
      obtain ⟨Li'', hLi'', hmemLi''⟩ := busAssignments_spec state i bs x hx n
        (fun ch' hch' => cellAssign_exists state n h i bs hget ch' hch' _)
      rw [hassign] at hLi''
      injection hLi'' with hEq
      obtain ⟨ch'', hch'', c'', hc'', hin''⟩ :=
        (hmemLi'' (pb, ch, g')).mp (hEq ▸ hin)
      have hshape :=
        cellAssign_mem state i bs ch'' _ c'' hc'' (pb, ch, g') hin''
      have hpbbs : pb ∈ bs := hshape.1
      have hilb : i = lb := mapping_partition i lb bs buses pb hget hmap hpbbs hpbbuses
      subst hilb
      rw [hmap] at hget
      injection hget with hbs
      subst hbs
      rw [hbus] at hx
      injection hx with hx1
      injection hx1 with hx2
      subst hx2
      have hch2 : ch = ch'' := hshape.2
      subst hch2
      rw [hc] at hc''
      injection hc'' with hcc
      subst hcc
      exact huniq g' hin''

/-- C1: for a non-solo logical bus and an unmuted channel, the absolute
linear gain computed by the downmix loop is
`10^(faderLevel/20) * 10^(busLevel/20)`; and for a mono logical bus this gain
is written directly as that physical bus's gain-matrix entry for the
channel. -/
theorem C1_downmix_gain (state : MixerState) (n lb ch : Nat)
    (h : DownmixOK state n)
    (hns : lb ≠ solo_bus_index) (hch : ch < n)
    (busLvl fl : ℝ)
    (hbus : state (state_names.bus lb "lvl") = some (Value.num busLvl))
    (hmute : state (state_names.channel ch "mute") = some (Value.bool false))
    (hfl : state (state_names.fader lb ch "lvl") = some (Value.num fl)) :
    cellGain state lb ch ((10 : ℝ) ^ (busLvl / 20)) =
      some ((10 : ℝ) ^ (fl / 20) * (10 : ℝ) ^ (busLvl / 20)) ∧
    ∀ pb, logical_bus_to_physical_bus_mapping.get? lb = some [pb] →
      ∃ m, gainMatrix state n = some m ∧
        m pb ch = (10 : ℝ) ^ (fl / 20) * (10 : ℝ) ^ (busLvl / 20) := by
  have hgain : cellGain state lb ch ((10 : ℝ) ^ (busLvl / 20)) =
      some ((10 : ℝ) ^ (fl / 20) * (10 : ℝ) ^ (busLvl / 20)) := by
    simp [cellGain, hns, getBool, hmute, getNum, hfl]
  refine ⟨hgain, fun pb hpb => ?_⟩
  have hcell : cellAssign state lb [pb] ch ((10 : ℝ) ^ (busLvl / 20)) =
      some [(pb, ch, (10 : ℝ) ^ (fl / 20) * (10 : ℝ) ^ (busLvl / 20))] := by
    simp [cellAssign, hgain]
  exact gainMatrix_entry state n h lb [pb] hpb ch hch busLvl hbus _ hcell pb _
    (by simp) (by intro g' hg'; simpa using hg')

/-- C2: for the designated solo bus (the last logical bus), a channel's gain
is 1 when its `pfl` flag is set and 0 otherwise — the hypotheses pin neither
the channel's mute state nor any fader or bus level, so the result is
independent of them; and for any non-solo bus a muted channel's gain-matrix
entries are 0 on every physical bus of that logical bus, regardless of fader
level. -/
theorem C2_solo_pfl_and_mute (state : MixerState) (n ch : Nat)
    (h : DownmixOK state n) (hch : ch < n)
    (pfl : Bool)
    (hpfl : state (state_names.channel ch "pfl") = some (Value.bool pfl))
    (busLvlS : ℝ)
    (hbusS : state (state_names.bus solo_bus_index "lvl") =
      some (Value.num busLvlS)) :
    (∀ pbS, logical_bus_to_physical_bus_mapping.get? solo_bus_index =
        some [pbS] →
      ∃ m, gainMatrix state n = some m ∧
        m pbS ch = if pfl then (1 : ℝ) else 0) ∧
    (∀ lb buses pb, lb ≠ solo_bus_index →
      logical_bus_to_physical_bus_mapping.get? lb = some buses → pb ∈ buses →
      state (state_names.channel ch "mute") = some (Value.bool true) →
      ∃ m, gainMatrix state n = some m ∧ m pb ch = 0) := by
  constructor
  · intro pbS hpbS
    have hgain : cellGain state solo_bus_index ch
        ((10 : ℝ) ^ (busLvlS / 20)) = some (if pfl then (1 : ℝ) else 0) := by
      simp [cellGain, getBool, hpfl]
    have hcell : cellAssign state solo_bus_index [pbS] ch
        ((10 : ℝ) ^ (busLvlS / 20)) =
        some [(pbS, ch, if pfl then (1 : ℝ) else 0)] := by
      simp [cellAssign, hgain]
    exact gainMatrix_entry state n h solo_bus_index [pbS] hpbS ch hch busLvlS
      hbusS _ hcell pbS _ (by simp) (by intro g' hg'; simpa using hg')
  · intro lb buses pb hns hmap hpb hmute
    obtain ⟨busLvl, hbus⟩ := h.1 lb (mapping_get?_lt lb buses hmap)
    have hgain : cellGain state lb ch ((10 : ℝ) ^ (busLvl / 20)) = some 0 := by
      simp [cellGain, hns, getBool, hmute]
    rcases mapping_shape lb buses hmap with ⟨pb', rfl⟩ | rfl
    · simp only [List.mem_singleton] at hpb
      subst hpb
      have hcell : cellAssign state lb [pb] ch ((10 : ℝ) ^ (busLvl / 20)) =
          some [(pb, ch, (0 : ℝ))] := by
        simp [cellAssign, hgain]
      exact gainMatrix_entry state n h lb [pb] hmap ch hch busLvl hbus _ hcell
        pb _ (by simp) (by intro g' hg'; simpa using hg')
    · obtain ⟨pan, hpan⟩ := h.2.2.2.2 lb (mapping_get?_lt lb _ hmap) ch hch
      have hcell : cellAssign state lb [0, 1] ch ((10 : ℝ) ^ (busLvl / 20)) =
          some [(0, ch, (0 : ℝ)), (1, ch, (0 : ℝ))] := by
        simp [cellAssign, hgain, getNum, hpan]
      simp only [List.mem_cons, List.mem_singleton, List.not_mem_nil,
        or_false] at hpb
      rcases hpb with rfl | rfl
      · exact gainMatrix_entry state n h lb [0, 1] hmap ch hch busLvl hbus _
          hcell 0 _ (by simp) (by intro g' hg'; simpa using hg')
      · exact gainMatrix_entry state n h lb [0, 1] hmap ch hch busLvl hbus _
          hcell 1 _ (by simp) (by intro g' hg'; simpa using hg')

/-- C3: for a stereo logical bus (two physical buses, left then right), the
gain-matrix entries are `gain * (0.5 - pan)^k` on the left and
`gain * (0.5 + pan)^k` on the right, where `k = panning_exponent =
3 / (20*log10 2)` and `pan` is the `(bus, channel)` fader `pan` parameter;
at `pan = 0` the two entries are equal. -/
theorem C3_stereo_panning (state : MixerState) (n lb l r ch : Nat)
    (h : DownmixOK state n)
    (hmap : logical_bus_to_physical_bus_mapping.get? lb = some [l, r])
    (hch : ch < n)
    (busLvl pan g : ℝ)
    (hbus : state (state_names.bus lb "lvl") = some (Value.num busLvl))
    (hpan : state (state_names.fader lb ch "pan") = some (Value.num pan))
    (hg : cellGain state lb ch ((10 : ℝ) ^ (busLvl / 20)) = some g) :
    panning_exponent = 3 / (20 * Real.logb 10 2) ∧
    ∃ m, gainMatrix state n = some m ∧
      m l ch = g * ((0.5 : ℝ) - pan) ^ panning_exponent ∧
      m r ch = g * ((0.5 : ℝ) + pan) ^ panning_exponent ∧
      (pan = 0 → m l ch = m r ch) := by
  have hlr : l = 0 ∧ r = 1 := by
    rcases mapping_shape lb [l, r] hmap with ⟨pb, hpb⟩ | hpb
    · exact absurd hpb (by simp)
    · simp only [List.cons.injEq] at hpb
      exact ⟨hpb.1, hpb.2.1⟩
  obtain ⟨h1, h2⟩ := hlr
  subst h1
  subst h2
  have hcell : cellAssign state lb [0, 1] ch ((10 : ℝ) ^ (busLvl / 20)) =
      some [(0, ch, g * ((0.5 : ℝ) - pan) ^ panning_exponent),
            (1, ch, g * ((0.5 : ℝ) + pan) ^ panning_exponent)] := by
    simp [cellAssign, hg, getNum, hpan]
  obtain ⟨m, hm, hml⟩ := gainMatrix_entry state n h lb [0, 1] hmap ch hch
    busLvl hbus _ hcell 0 (g * ((0.5 : ℝ) - pan) ^ panning_exponent)
    (by simp) (by intro g' hg'; simpa using hg')
  obtain ⟨m', hm', hmr⟩ := gainMatrix_entry state n h lb [0, 1] hmap ch hch
    busLvl hbus _ hcell 1 (g * ((0.5 : ℝ) + pan) ^ panning_exponent)
    (by simp) (by intro g' hg'; simpa using hg')
  rw [hm] at hm'
  injection hm' with hmm
  subst hmm
  refine ⟨rfl, m, hm, hml, hmr, fun h0 => ?_⟩
  subst h0
  rw [hml, hmr]
  norm_num

theorem testState_ok : DownmixOK testState 2 := by
  refine ⟨fun lb hlb => ?_, fun ch hch => ?_, fun ch hch => ?_,
    fun lb hlb ch hch => ?_, fun lb hlb ch hch => ?_⟩
  · have hlb7 : lb < 7 := by
      simpa [logical_bus_to_physical_bus_mapping] using hlb
    interval_cases lb <;> exact ⟨0, rfl⟩
  · interval_cases ch
    · exact ⟨false, rfl⟩
    · exact ⟨true, rfl⟩
  · interval_cases ch
    · exact ⟨true, rfl⟩
    · exact ⟨false, rfl⟩
  · have hlb7 : lb < 7 := by
      simpa [logical_bus_to_physical_bus_mapping] using hlb
    interval_cases lb <;> interval_cases ch <;> exact ⟨0, rfl⟩
  · have hlb7 : lb < 7 := by
      simpa [logical_bus_to_physical_bus_mapping] using hlb
    interval_cases lb <;> interval_cases ch <;> exact ⟨0, rfl⟩

theorem C1_downmix_gain_witness :
    DownmixOK testState 2 ∧
    (cellGain testState 1 0 ((10 : ℝ) ^ ((0 : ℝ) / 20)) =
        some ((10 : ℝ) ^ ((0 : ℝ) / 20) * (10 : ℝ) ^ ((0 : ℝ) / 20)) ∧
      ∀ pb, logical_bus_to_physical_bus_mapping.get? 1 = some [pb] →
        ∃ m, gainMatrix testState 2 = some m ∧
          m pb 0 = (10 : ℝ) ^ ((0 : ℝ) / 20) * (10 : ℝ) ^ ((0 : ℝ) / 20)) :=
  ⟨testState_ok,
   C1_downmix_gain testState 2 1 0 testState_ok (by decide) (by decide)
     0 0 rfl rfl rfl⟩

theorem C2_solo_pfl_and_mute_witness :
    DownmixOK testState 2 ∧
    ((∀ pbS, logical_bus_to_physical_bus_mapping.get? solo_bus_index =
        some [pbS] →
      ∃ m, gainMatrix testState 2 = some m ∧
        m pbS 1 = if false then (1 : ℝ) else 0) ∧
    (∀ lb buses pb, lb ≠ solo_bus_index →
      logical_bus_to_physical_bus_mapping.get? lb = some buses → pb ∈ buses →
      testState (state_names.channel 1 "mute") = some (Value.bool true) →
      ∃ m, gainMatrix testState 2 = some m ∧ m pb 1 = 0)) :=
  ⟨testState_ok,
   C2_solo_pfl_and_mute testState 2 1 testState_ok (by decide) false rfl
     0 rfl⟩

theorem C3_stereo_panning_witness :
    DownmixOK testState 2 ∧
    (panning_exponent = 3 / (20 * Real.logb 10 2) ∧
     ∃ m, gainMatrix testState 2 = some m ∧
       m 0 0 = ((10 : ℝ) ^ ((0 : ℝ) / 20) * (10 : ℝ) ^ ((0 : ℝ) / 20)) *
         ((0.5 : ℝ) - 0) ^ panning_exponent ∧
       m 1 0 = ((10 : ℝ) ^ ((0 : ℝ) / 20) * (10 : ℝ) ^ ((0 : ℝ) / 20)) *
         ((0.5 : ℝ) + 0) ^ panning_exponent ∧
       ((0 : ℝ) = 0 → m 0 0 = m 1 0)) :=
  ⟨testState_ok,
   C3_stereo_panning testState 2 0 0 1 0 testState_ok rfl (by decide)
     0 0 ((10 : ℝ) ^ ((0 : ℝ) / 20) * (10 : ℝ) ^ ((0 : ℝ) / 20))
     rfl rfl rfl⟩

/-- C6: `apply_update` returns `False` and leaves the controller state (logical
state, memoizer, memory image) untouched when the key is not in the state
dict; when the key is recognized it stores the new value at that key, re-runs
the full translation into the memory image, advances the cache generation,
and returns `True`. -/
theorem C6_apply_update (c : ControllerState) (mix : Mixer) (prog : DspProgram)
    (control : String) (value : Value) :
    (c.state control = none →
      Controller.apply_update c mix prog control value = some (false, c)) ∧
    (dictSet c.state control value control = some value) ∧
    (∀ v0 ws mz, c.state control = some v0 →
      logical_to_physical (dictSet c.state control value) mix prog
          c.memoizer = some (ws, mz) →
      Controller.apply_update c mix prog control value =
        some (true,
          { state := dictSet c.state control value,
            memoizer := mz.advance,
            param_mem := applyWrites c.param_mem ws })) := by
  refine ⟨fun h => ?_, ?_, fun v0 ws mz h ht => ?_⟩
  · simp [Controller.apply_update, h]
  · simp [dictSet]
  · simp [Controller.apply_update, h, Controller.update_state, ht]

theorem C6_apply_update_witness :
    (witnessCtrlState "nope" = none ∧
     Controller.apply_update
        ⟨witnessCtrlState, emptyMemoizer, fun _ => 0⟩ witnessMixer
        witnessProg "nope" (Value.num 1) =
      some (false, ⟨witnessCtrlState, emptyMemoizer, fun _ => 0⟩)) ∧
    (witnessCtrlState "c0/mute" = some (Value.bool true) ∧
     logical_to_physical (dictSet witnessCtrlState "c0/mute" (Value.bool false))
        witnessMixer witnessProg emptyMemoizer =
      some (constantsAndMeterWrites 2 witnessProg, emptyMemoizer) ∧
     Controller.apply_update
        ⟨witnessCtrlState, emptyMemoizer, fun _ => 0⟩ witnessMixer
        witnessProg "c0/mute" (Value.bool false) =
      some (true,
        ⟨dictSet witnessCtrlState "c0/mute" (Value.bool false),
         emptyMemoizer.advance,
         applyWrites (fun _ => 0) (constantsAndMeterWrites 2 witnessProg)⟩)) :=
  ⟨⟨rfl,
    (C6_apply_update ⟨witnessCtrlState, emptyMemoizer, fun _ => 0⟩
      witnessMixer witnessProg "nope" (Value.num 1)).1 rfl⟩,
   ⟨rfl, rfl,
    (C6_apply_update ⟨witnessCtrlState, emptyMemoizer, fun _ => 0⟩
      witnessMixer witnessProg "c0/mute" (Value.bool false)).2.2
      (Value.bool true) (constantsAndMeterWrites 2 witnessProg)
      emptyMemoizer rfl rfl⟩⟩
